import Mathlib

set_option maxRecDepth 1000000

/-!
Verification development for the Cypress→Playwright conversion tool
(`src/components/interfaces.py`, functions `convert_cypress_code` and
`_convert_advanced_patterns`).

The Python code works on raw text: ordered tables of substring
replacements (Python dicts preserve insertion order) followed by a fixed
sequence of regular-expression rewrites.  We embed the text as `List Char`
and mirror each Python primitive:

* `hasSub hay pat`   — Python `pat in hay`;
* `pyReplace l pat rep` — Python `l.replace(pat, rep)` (all non-overlapping
  occurrences, scanning left to right, the replacement text not rescanned);
* `refindAll m l`    — Python `re.findall(pattern, l)` for the specific
  patterns used by the source.  Every regex in the source is
  "deterministic greedy": each greedy class `[^x]+`, `\d+`, `\s*`,
  `[a-zA-Z0-9]*` is immediately followed by a literal whose first
  character the class excludes, so Python's backtracking search agrees
  with a single greedy scan, which is what the matchers below implement.
  (`\d`/`\s` are modelled as their ASCII sets; the source is only ever fed
  JavaScript test code.)
-/

/-- Text, as a list of characters (Python `str`). -/
abbrev Str := List Char

/-- Python `pat in hay` (substring test). -/
def hasSub (hay pat : Str) : Bool :=
  match hay with
  | [] => pat.isEmpty
  | _ :: t => pat.isPrefixOf hay || hasSub t pat

/-- Fuelled worker for `pyReplace`; consumes at least one character of `l`
per step, so fuel `l.length` suffices. -/
def pyReplaceF (pat rep : Str) : Nat → Str → Str
  | 0, l => l
  | _ + 1, [] => []
  | fuel + 1, h :: t =>
    if pat.isPrefixOf (h :: t) then
      rep ++ pyReplaceF pat rep fuel ((h :: t).drop pat.length)
    else
      h :: pyReplaceF pat rep fuel t

/-- Python `l.replace(pat, rep)`.  (The source never calls `replace` with an
empty pattern; we return `l` unchanged in that degenerate case.) -/
def pyReplace (l pat rep : Str) : Str :=
  if pat.isEmpty then l else pyReplaceF pat rep l.length l

/-- Python `l.startswith(pat)`. -/
def pyStartsWith (l pat : Str) : Bool := pat.isPrefixOf l

/-- Python `sep.join(parts)`. -/
def joinWith (sep : Str) : List Str → Str
  | [] => []
  | [x] => x
  | x :: y :: xs => x ++ sep ++ joinWith sep (y :: xs)

/-- Python `str.lower()` restricted to ASCII letters (the only characters
the source ever lowercases). -/
def asciiLower (l : Str) : Str :=
  l.map fun c => if 'A' ≤ c ∧ c ≤ 'Z' then Char.ofNat (c.toNat + 32) else c

/-- The characters Python 3.7+ `re.escape` escapes. -/
def reSpecialChar (c : Char) : Bool :=
  ['(', ')', '[', ']', '\x7b', '\x7d', '?', '*', '+', '-', '|', '^',
   '$', '\\', '.', '&', '~', '#', ' ', '\t', '\n', '\r', '\x0b', '\x0c'].contains c

/-- Python `re.escape`. -/
def reEscape (l : Str) : Str :=
  l.foldr (fun c acc => if reSpecialChar c then '\\' :: c :: acc else c :: acc) []

/-! ### Matchers for the source's regular expressions -/

/-- A matcher tries to recognise a regex at the head of the text, returning
the captures and the unconsumed rest. -/
abbrev Rx (α : Type) := Str → Option (α × Str)

/-- Match the literal `w` at the head, returning the rest. -/
def dropLit (w : String) (l : Str) : Option Str :=
  if w.data.isPrefixOf l then some (l.drop w.data.length) else none

/-- Greedy run of characters satisfying `p` (regex `[...]*`). -/
def takeRun (p : Char → Bool) (l : Str) : Str × Str :=
  (l.takeWhile p, l.dropWhile p)

/-- Greedy nonempty run (regex `[...]+`). -/
def takeRun1 (p : Char → Bool) (l : Str) : Option (Str × Str) :=
  match takeRun p l with
  | ([], _) => none
  | (r, rest) => some (r, rest)

/-- One character of the class (regex `[...]`, a single char). -/
def takeOne (p : Char → Bool) : Str → Option (Char × Str)
  | [] => none
  | c :: rest => if p c then some (c, rest) else none

/-- Regex class `[^'\"]`. -/
def notQuote (c : Char) : Bool := c ≠ '\'' && c ≠ '"'

/-- Regex class `['\"]`. -/
def isQuote (c : Char) : Bool := c = '\'' || c = '"'

/-- Regex class `\d` (ASCII). -/
def isDigitCh (c : Char) : Bool := '0' ≤ c && c ≤ '9'

/-- Regex class `\s` (ASCII). -/
def isSpaceCh (c : Char) : Bool :=
  c = ' ' || c = '\t' || c = '\n' || c = '\r' || c = '\x0b' || c = '\x0c'

/-- Regex class `[a-zA-Z]`. -/
def isAlphaCh (c : Char) : Bool := ('a' ≤ c && c ≤ 'z') || ('A' ≤ c && c ≤ 'Z')

/-- Regex class `[a-zA-Z0-9]`. -/
def isAlnumCh (c : Char) : Bool := isAlphaCh c || isDigitCh c

/-- Regex class `[^)]`. -/
def notRParen (c : Char) : Bool := c ≠ ')'

/-- Regex class `[^,]`. -/
def notComma (c : Char) : Bool := c ≠ ','

/-- Fuelled worker for `refindAll`: try the matcher at every position, left
to right; on a match, record the captures and continue after the matched
span (Python `re.findall` semantics for non-overlapping matches). -/
def refindAux {α} (m : Rx α) : Nat → Str → List α
  | 0, _ => []
  | fuel + 1, l =>
    match m l with
    | some (a, rest) => a :: refindAux m fuel rest
    | none =>
      match l with
      | [] => []
      | _ :: t => refindAux m fuel t

/-- Python `re.findall(pattern, l)` for a matcher `m` that consumes at least
one character whenever it succeeds (true of every matcher below). -/
def refindAll {α} (m : Rx α) (l : Str) : List α :=
  refindAux m (l.length + 1) l

/-- Python `re.search(pattern, l) is not None`. -/
def reSearchB {α} (m : Rx α) (l : Str) : Bool :=
  !(refindAll m l).isEmpty

/-! ### The conversion tables (`conversions` dict, interfaces.py lines 11–117)

Python dicts preserve insertion order, and the source iterates them with
`.items()`, so each category is an ordered association list here, in the
exact order of the source.  Brace characters inside replacement text are
written `\x7b`/`\x7d`. -/

def basic_syntax : List (String × String) :=
  [("cy.get(", "page.locator("),
   ("cy.visit(", "await page.goto("),
   ("cy.url()", "page.url()"),
   (".type(", ".fill("),
   (".click()", ".click()"),
   (".should('be.visible')", "await expect(...).toBeVisible()"),
   (".should('contain',", "await expect(...).toContainText("),
   ("describe(", "test.describe("),
   ("it(", "test("),
   ("beforeEach(", "test.beforeEach(async (\x7b page \x7d) => \x7b")]

def assertions : List (String × String) :=
  [("cy.url().should('include',", "await expect(page).toHaveURL(/.*"),
   ("cy.url().should('eq',", "await expect(page).toHaveURL("),
   ("cy.url().should('equal',", "await expect(page).toHaveURL("),
   ("cy.url().should('contain',", "await expect(page).toHaveURL(/.*"),
   ("cy.url().should('match',", "await expect(page).toHaveURL("),
   (".should('be.visible')", "await expect(locator).toBeVisible()"),
   (".should('not.exist')", "await expect(locator).not.toBeVisible()"),
   (".should('contain',", "await expect(locator).toContainText("),
   (".should('have.text',", "await expect(locator).toHaveText("),
   (".should('have.value',", "await expect(locator).toHaveValue("),
   (".should('have.length',", "await expect(locator).toHaveCount("),
   (".should('be.empty')", "await expect(locator).toBeEmpty()"),
   (".should('be.enabled')", "await expect(locator).toBeEnabled()"),
   (".should('be.disabled')", "await expect(locator).toBeDisabled()"),
   (".should('have.class',", "await expect(locator).toHaveClass(")]

def commands : List (String × String) :=
  [("cy.get(", "page.locator("),
   ("cy.visit(", "await page.goto("),
   ("cy.url()", "page.url()"),
   ("cy.intercept(", "await page.route("),
   ("cy.fixture(", "// Use test data factory instead"),
   ("cy.wrap(", "// Use direct variable assignment instead"),
   ("cy.contains(", "page.getByText("),
   (".each(", ".map(async (element, index) => \x7b"),
   (".as('", "// Use variable assignment instead of alias")]

def waiting : List (String × String) :=
  [(".should('be.visible')", "await expect(locator).toBeVisible()"),
   (".should('exist')", "await expect(locator).toBeAttached()"),
   (".should('not.exist')", "await expect(locator).not.toBeAttached()"),
   ("cy.get(", "await page.locator("),
   ("cy.waitUntil(", "await page.waitForFunction("),
   ("cy.wait().then(", "// Use direct async/await instead")]

def advanced : List (String × String) :=
  [("cy.request(", "await request.newContext().request("),
   ("cy.intercept('GET',", "await page.route('GET', "),
   ("cy.intercept('POST',", "await page.route('POST', "),
   ("cy.intercept('PUT',", "await page.route('PUT', "),
   ("cy.intercept('DELETE',", "await page.route('DELETE', "),
   ("cy.wait('@", "await page.waitForResponse("),
   ("cy.task(", "// Use custom functions or direct Node.js code"),
   ("Cypress.Commands.add(", "// Convert to Page Object Model method"),
   ("Cypress.env(", "process.env."),
   ("window.localStorage.setItem(", "await page.evaluate(() => localStorage.setItem("),
   ("window.localStorage.getItem(", "await page.evaluate(() => localStorage.getItem("),
   (".its('response.statusCode')", "// Use response object directly"),
   (".fixture(", "// Use JSON import or test data factory")]

def url_navigation : List (String × String) :=
  [("cy.visit(", "await page.goto("),
   ("cy.url()", "page.url()"),
   ("cy.go('back')", "await page.goBack()"),
   ("cy.go('forward')", "await page.goForward()"),
   ("cy.reload()", "await page.reload()"),
   ("cy.url().should('include',", "await expect(page).toHaveURL(/.*"),
   ("cy.url().should('eq',", "await expect(page).toHaveURL("),
   ("cy.url().should('equal',", "await expect(page).toHaveURL("),
   ("cy.url().should('contain',", "await expect(page).toHaveURL(/.*"),
   ("cy.url().should('match',", "await expect(page).toHaveURL("),
   ("cy.location('search').should('include',", "await expect(page).toHaveURL(/.*"),
   ("cy.location('pathname').should('include',", "await expect(page).toHaveURL(/.*"),
   ("cy.location('hash').should('include',", "await expect(page).toHaveURL(/.*")]

def architectural : List (String × String) :=
  [("cy.window().then(", "await page.evaluate("),
   ("cy.window().its(", "await page.evaluate(() => window."),
   ("cy.window()", "await page.evaluate(() => window)"),
   ("Cypress.Commands.add(", "// Convert to Page Object Model method or helper function"),
   (".invoke(", "await page.evaluate("),
   (".its(", "// Use page.evaluate() for property access"),
   ("cy.stub(", "// Use page.route() for network mocking instead"),
   ("cy.spy(", "// Use page.evaluate() for function monitoring"),
   ("cy.wrap(", "// Use direct async/await instead of wrapping"),
   (".as('", "// Use variable assignment: const alias = "),
   ("cy.get('@", "// Use the stored variable directly"),
   (".should('have.property',", "// Use page.evaluate() to check properties"),
   (".should('have.been.called", "// Use page.route() with callback tracking")]

def fixtures_commands : List (String × String) :=
  [("cy.fixture(", "// Import JSON directly or use data loading utility"),
   ("Cypress.Commands.add(", "// Convert to helper function or Page Object method"),
   ("cy.task(", "// Use direct function calls or utility classes"),
   ("Cypress.env(", "process.env."),
   (".as('", "// Use variable assignment instead of alias"),
   ("cy.get('@", "// Use the stored variable directly"),
   ("beforeEach(", "test.beforeEach(async (\x7b page \x7d) => \x7b"),
   ("before(", "test.beforeAll(async (\x7b browser \x7d) => \x7b")]

/-- The `conversions` dict, in insertion order. -/
def conversions : List (String × List (String × String)) :=
  [("basic_syntax", basic_syntax),
   ("assertions", assertions),
   ("commands", commands),
   ("waiting", waiting),
   ("advanced", advanced),
   ("url_navigation", url_navigation),
   ("architectural", architectural),
   ("fixtures_commands", fixtures_commands)]

/-- `categories_to_apply` (line 124). -/
def categories_to_apply : List String :=
  ["basic_syntax", "assertions", "commands", "waiting", "advanced",
   "url_navigation", "architectural", "fixtures_commands"]

/-! ### Explanation strings

The source file's explanation strings literally contain the double-encoded
bytes `\xc3\xa2\xe2\x82\xac\xc2\xa2` ("â€¢", a mojibake bullet) and
`\xc3\xa2\xe2\x80\xa0\xe2\x80\x99` ("â†’", a mojibake arrow); decoded as
UTF-8 these are the three-character sequences below. -/

def mjBullet : Str := [Char.ofNat 0xE2, Char.ofNat 0x20AC, Char.ofNat 0xA2]

def mjArrow : Str := [Char.ofNat 0xE2, Char.ofNat 0x2020, Char.ofNat 0x2019]

/-- f"â€¢ \x7bold\x7d â†’ \x7bnew\x7d" -/
def explLine (old new : Str) : Str :=
  mjBullet ++ " ".data ++ old ++ " ".data ++ mjArrow ++ " ".data ++ new

/-- f"â€¢ \x7bold\x7d â†’ \x7bnew\x7d\x7bsuffix\x7d" (for entries with a
trailing advisory such as " (consider using auto-wait instead)"). -/
def explLineSuf (old new suf : Str) : Str := explLine old new ++ suf

/-! ### `_convert_advanced_patterns` (interfaces.py lines 167–378)

One matcher per regex of the source, in source order, followed by the
replacement loop of that block.  Each loop mirrors the Python exactly:
`re.findall` is evaluated once on the code as it stands at the start of
the block, then each capture rebuilds the `old_pattern` f-string (always
with single quotes) and replaces every occurrence. -/

/-- `cy\.contains\(['\"]([^'\"]+)['\"]\)` -/
def mContainsBasic : Rx Str := fun l => do
  let l ← dropLit "cy.contains(" l
  let (_, l) ← takeOne isQuote l
  let (cap, l) ← takeRun1 notQuote l
  let (_, l) ← takeOne isQuote l
  let l ← dropLit ")" l
  pure (cap, l)

def stepContainsBasic (st : Str × List Str) : Str × List Str :=
  (refindAll mContainsBasic st.1).foldl
    (fun st cap =>
      let old := "cy.contains('".data ++ cap ++ "')".data
      let np := "page.getByText('".data ++ cap ++ "')".data
      (pyReplace st.1 old np, st.2 ++ [explLine old np]))
    st

/-- `cy\.contains\(['\"]([^'\"]+)['\"]\s*,\s*['\"]([^'\"]+)['\"]\)` -/
def mContainsSel : Rx (Str × Str) := fun l => do
  let l ← dropLit "cy.contains(" l
  let (_, l) ← takeOne isQuote l
  let (sel, l) ← takeRun1 notQuote l
  let (_, l) ← takeOne isQuote l
  let (_, l) := takeRun isSpaceCh l
  let l ← dropLit "," l
  let (_, l) := takeRun isSpaceCh l
  let (_, l) ← takeOne isQuote l
  let (txt, l) ← takeRun1 notQuote l
  let (_, l) ← takeOne isQuote l
  let l ← dropLit ")" l
  pure ((sel, txt), l)

def stepContainsSel (st : Str × List Str) : Str × List Str :=
  (refindAll mContainsSel st.1).foldl
    (fun st cap =>
      let old := "cy.contains('".data ++ cap.1 ++ "', '".data ++ cap.2 ++ "')".data
      let np := "page.locator('".data ++ cap.1 ++ "').getByText('".data ++ cap.2 ++ "')".data
      (pyReplace st.1 old np, st.2 ++ [explLine old np]))
    st

/-- `(cy\.[a-zA-Z][a-zA-Z0-9]*\([^)]*\))` — the capture is the whole match. -/
def mUnidentifiedCy : Rx Str := fun l => do
  let l1 ← dropLit "cy." l
  let (c0, l2) ← takeOne isAlphaCh l1
  let (nm, l3) := takeRun isAlnumCh l2
  let l4 ← dropLit "(" l3
  let (args, l5) := takeRun notRParen l4
  let l6 ← dropLit ")" l5
  pure ("cy.".data ++ c0 :: nm ++ "(".data ++ args ++ ")".data, l6)

/-- `known_patterns` (lines 198–203). -/
def known_patterns : List String :=
  ["cy.get(", "cy.visit(", "cy.url(", "cy.wait(", "cy.intercept(",
   "cy.contains(", "cy.fixture(", "cy.wrap(", "cy.window(", "cy.location(",
   "cy.go(", "cy.reload(", "cy.request(", "cy.task(", "cy.stub(",
   "cy.spy(", "cy.waitUntil("]

def stepUnidentified (st : Str × List Str) : Str × List Str :=
  (refindAll mUnidentifiedCy st.1).foldl
    (fun st cmd =>
      let isUnidentified := !(known_patterns.any fun k => pyStartsWith cmd k.data)
      if isUnidentified && hasSub st.1 cmd then
        let np := "// TODO: Manual review needed - possible custom command: ".data ++ cmd
        (pyReplace st.1 cmd np, st.2 ++ [explLine cmd np])
      else st)
    st

/-- `cy\.location\('search'\)\.should\('include',\s*['\"]([^'\"]+)['\"]\)` -/
def mLocSearch : Rx Str := fun l => do
  let l ← dropLit "cy.location('search').should('include'," l
  let (_, l) := takeRun isSpaceCh l
  let (_, l) ← takeOne isQuote l
  let (cap, l) ← takeRun1 notQuote l
  let (_, l) ← takeOne isQuote l
  let l ← dropLit ")" l
  pure (cap, l)

def stepLocSearch (st : Str × List Str) : Str × List Str :=
  (refindAll mLocSearch st.1).foldl
    (fun st cap =>
      let old := "cy.location('search').should('include', '".data ++ cap ++ "')".data
      let np := "await expect(page).toHaveURL(/.*\\?.*".data ++ reEscape cap ++ ".*/)".data
      (pyReplace st.1 old np, st.2 ++ [explLine old np]))
    st

/-- `cy\.location\('pathname'\)\.should\('include',\s*['\"]([^'\"]+)['\"]\)` -/
def mLocPathname : Rx Str := fun l => do
  let l ← dropLit "cy.location('pathname').should('include'," l
  let (_, l) := takeRun isSpaceCh l
  let (_, l) ← takeOne isQuote l
  let (cap, l) ← takeRun1 notQuote l
  let (_, l) ← takeOne isQuote l
  let l ← dropLit ")" l
  pure (cap, l)

def stepLocPathname (st : Str × List Str) : Str × List Str :=
  (refindAll mLocPathname st.1).foldl
    (fun st cap =>
      let old := "cy.location('pathname').should('include', '".data ++ cap ++ "')".data
      let np := "await expect(page).toHaveURL(/.*".data ++ reEscape cap ++ ".*/)".data
      (pyReplace st.1 old np, st.2 ++ [explLine old np]))
    st

/-- `cy\.location\('hash'\)\.should\('include',\s*['\"]([^'\"]+)['\"]\)` -/
def mLocHash : Rx Str := fun l => do
  let l ← dropLit "cy.location('hash').should('include'," l
  let (_, l) := takeRun isSpaceCh l
  let (_, l) ← takeOne isQuote l
  let (cap, l) ← takeRun1 notQuote l
  let (_, l) ← takeOne isQuote l
  let l ← dropLit ")" l
  pure (cap, l)

def stepLocHash (st : Str × List Str) : Str × List Str :=
  (refindAll mLocHash st.1).foldl
    (fun st cap =>
      let old := "cy.location('hash').should('include', '".data ++ cap ++ "')".data
      let np := "await expect(page).toHaveURL(/.*#".data ++ reEscape cap ++ ".*/)".data
      (pyReplace st.1 old np, st.2 ++ [explLine old np]))
    st

/-- `cy\.url\(\)\.should\('include',\s*['\"]([^'\"]+)['\"]\)` -/
def mUrlInclude : Rx Str := fun l => do
  let l ← dropLit "cy.url().should('include'," l
  let (_, l) := takeRun isSpaceCh l
  let (_, l) ← takeOne isQuote l
  let (cap, l) ← takeRun1 notQuote l
  let (_, l) ← takeOne isQuote l
  let l ← dropLit ")" l
  pure (cap, l)

def stepUrlInclude (st : Str × List Str) : Str × List Str :=
  (refindAll mUrlInclude st.1).foldl
    (fun st cap =>
      let old := "cy.url().should('include', '".data ++ cap ++ "')".data
      let np := "await expect(page).toHaveURL(/.*".data ++ reEscape cap ++ ".*/)".data
      (pyReplace st.1 old np, st.2 ++ [explLine old np]))
    st

/-- `cy\.url\(\)\.should\('eq',\s*['\"]([^'\"]+)['\"]\)` -/
def mUrlEq : Rx Str := fun l => do
  let l ← dropLit "cy.url().should('eq'," l
  let (_, l) := takeRun isSpaceCh l
  let (_, l) ← takeOne isQuote l
  let (cap, l) ← takeRun1 notQuote l
  let (_, l) ← takeOne isQuote l
  let l ← dropLit ")" l
  pure (cap, l)

def stepUrlEq (st : Str × List Str) : Str × List Str :=
  (refindAll mUrlEq st.1).foldl
    (fun st cap =>
      let old := "cy.url().should('eq', '".data ++ cap ++ "')".data
      let np := "await expect(page).toHaveURL('".data ++ cap ++ "')".data
      (pyReplace st.1 old np, st.2 ++ [explLine old np]))
    st

/-- `cy\.url\(\)\.should\('contain',\s*['\"]([^'\"]+)['\"]\)` -/
def mUrlContain : Rx Str := fun l => do
  let l ← dropLit "cy.url().should('contain'," l
  let (_, l) := takeRun isSpaceCh l
  let (_, l) ← takeOne isQuote l
  let (cap, l) ← takeRun1 notQuote l
  let (_, l) ← takeOne isQuote l
  let l ← dropLit ")" l
  pure (cap, l)

def stepUrlContain (st : Str × List Str) : Str × List Str :=
  (refindAll mUrlContain st.1).foldl
    (fun st cap =>
      let old := "cy.url().should('contain', '".data ++ cap ++ "')".data
      let np := "await expect(page).toHaveURL(/.*".data ++ reEscape cap ++ ".*/)".data
      (pyReplace st.1 old np, st.2 ++ [explLine old np]))
    st


/-- `cy\.wait\('@([^'\"]+)'\)\.its\('response\.statusCode'\)\.should\('eq',\s*(\d+)\)` -/
def mWaitItsShould : Rx (Str × Str) := fun l => do
  let l ← dropLit "cy.wait('@" l
  let (al, l) ← takeRun1 notQuote l
  let l ← dropLit "').its('response.statusCode').should('eq'," l
  let (_, l) := takeRun isSpaceCh l
  let (sc, l) ← takeRun1 isDigitCh l
  let l ← dropLit ")" l
  pure ((al, sc), l)

def stepWaitItsShould (st : Str × List Str) : Str × List Str :=
  (refindAll mWaitItsShould st.1).foldl
    (fun st cap =>
      let old := "cy.wait('@".data ++ cap.1 ++
        "').its('response.statusCode').should('eq', ".data ++ cap.2 ++ ")".data
      let np := "expect((await page.waitForResponse('**/".data ++ cap.1 ++
        "**')).status()).toBe(".data ++ cap.2 ++ ")".data
      (pyReplace st.1 old np, st.2 ++ [explLine old np]))
    st

/-- `cy\.wait\('@([^'\"]+)'\)\.its\('response\.statusCode'\)` -/
def mWaitIts : Rx Str := fun l => do
  let l ← dropLit "cy.wait('@" l
  let (al, l) ← takeRun1 notQuote l
  let l ← dropLit "').its('response.statusCode')" l
  pure (al, l)

def stepWaitIts (st : Str × List Str) : Str × List Str :=
  (refindAll mWaitIts st.1).foldl
    (fun st cap =>
      let old := "cy.wait('@".data ++ cap ++ "').its('response.statusCode')".data
      let np := "(await page.waitForResponse('**/".data ++ cap ++ "**')).status()".data
      (pyReplace st.1 old np, st.2 ++ [explLine old np]))
    st

/-- `cy\.wait\('@([^'\"]+)'\)` -/
def mWaitAlias : Rx Str := fun l => do
  let l ← dropLit "cy.wait('@" l
  let (al, l) ← takeRun1 notQuote l
  let l ← dropLit "')" l
  pure (al, l)

def stepWaitAlias (st : Str × List Str) : Str × List Str :=
  (refindAll mWaitAlias st.1).foldl
    (fun st cap =>
      let old := "cy.wait('@".data ++ cap ++ "')".data
      let low := asciiLower cap
      let np :=
        if hasSub low "api".data || hasSub low "request".data || hasSub low "get".data then
          "await page.waitForResponse('**/*".data ++
            asciiLower (pyReplace (pyReplace (pyReplace cap "get".data [])
              "api".data []) "data".data []) ++ "*')".data
        else
          "await page.waitForResponse('**/".data ++ cap ++ "**')".data
      (pyReplace st.1 old np, st.2 ++ [explLine old np]))
    st

/-- `cy\.wait\((\d+)\)` -/
def mWaitNumber : Rx Str := fun l => do
  let l ← dropLit "cy.wait(" l
  let (n, l) ← takeRun1 isDigitCh l
  let l ← dropLit ")" l
  pure (n, l)

def stepWaitNumber (st : Str × List Str) : Str × List Str :=
  (refindAll mWaitNumber st.1).foldl
    (fun st cap =>
      let old := "cy.wait(".data ++ cap ++ ")".data
      let np := "await page.waitForTimeout(".data ++ cap ++ ")".data
      (pyReplace st.1 old np,
       st.2 ++ [explLineSuf old np " (consider using auto-wait instead)".data]))
    st

/-- Lines 313–317: `re.search`/`re.sub` of the literal regex
`\.its\('response\.statusCode'\)`, i.e. replace the literal text. -/
def stepItsResponse (st : Str × List Str) : Str × List Str :=
  if hasSub st.1 ".its('response.statusCode')".data then
    (pyReplace st.1 ".its('response.statusCode')".data ".status()".data,
     st.2 ++ [explLine ".its('response.statusCode')".data ".status()".data])
  else st

/-- `\.status\(\)\.should\('eq',\s*(\d+)\)` -/
def mStatusShould : Rx Str := fun l => do
  let l ← dropLit ".status().should('eq'," l
  let (_, l) := takeRun isSpaceCh l
  let (n, l) ← takeRun1 isDigitCh l
  let l ← dropLit ")" l
  pure (n, l)

def stepStatusShould (st : Str × List Str) : Str × List Str :=
  (refindAll mStatusShould st.1).foldl
    (fun st cap =>
      let old := ".status().should('eq', ".data ++ cap ++ ")".data
      let np := ".status()).toBe(".data ++ cap ++ ")".data
      (pyReplace st.1 old np, st.2 ++ [explLine old ("expect(...".data ++ np)]))
    st

/-- `\.should\('eq',\s*(\d+)\)` -/
def mShouldEq : Rx Str := fun l => do
  let l ← dropLit ".should('eq'," l
  let (_, l) := takeRun isSpaceCh l
  let (n, l) ← takeRun1 isDigitCh l
  let l ← dropLit ")" l
  pure (n, l)

def stepShouldEq (st : Str × List Str) : Str × List Str :=
  (refindAll mShouldEq st.1).foldl
    (fun st cap =>
      let old := ".should('eq', ".data ++ cap ++ ")".data
      let np := " === ".data ++ cap
      (pyReplace st.1 old np,
       st.2 ++ [explLineSuf old np " (direct comparison)".data]))
    st

/-- `cy\.waitUntil\(\(\) => ([^)]+)\)` -/
def mWaitUntil : Rx Str := fun l => do
  let l ← dropLit "cy.waitUntil(() => " l
  let (cond, l) ← takeRun1 notRParen l
  let l ← dropLit ")" l
  pure (cond, l)

def stepWaitUntil (st : Str × List Str) : Str × List Str :=
  (refindAll mWaitUntil st.1).foldl
    (fun st cap =>
      let old := "cy.waitUntil(() => ".data ++ cap ++ ")".data
      let np := "await page.waitForFunction(() => ".data ++ cap ++ ")".data
      (pyReplace st.1 old np, st.2 ++ [explLine old np]))
    st

/-- `\.as\(['\"]([^'\"]+)['\"]\)` -/
def mAsAlias : Rx Str := fun l => do
  let l ← dropLit ".as(" l
  let (_, l) ← takeOne isQuote l
  let (cap, l) ← takeRun1 notQuote l
  let (_, l) ← takeOne isQuote l
  let l ← dropLit ")" l
  pure (cap, l)

def stepAsAlias (st : Str × List Str) : Str × List Str :=
  (refindAll mAsAlias st.1).foldl
    (fun st cap =>
      let old := ".as('".data ++ cap ++ "')".data
      let np := "// Store in variable: const ".data ++ cap ++ " = ".data
      (pyReplace st.1 old np,
       st.2 ++ [mjBullet ++ " Alias .as('".data ++ cap ++ "') ".data ++ mjArrow ++
         " Use variable assignment".data]))
    st

/-- `cy\.get\('@([^'\"]+)'\)` -/
def mGetAlias : Rx Str := fun l => do
  let l ← dropLit "cy.get('@" l
  let (cap, l) ← takeRun1 notQuote l
  let l ← dropLit "')" l
  pure (cap, l)

def stepGetAlias (st : Str × List Str) : Str × List Str :=
  (refindAll mGetAlias st.1).foldl
    (fun st cap =>
      let old := "cy.get('@".data ++ cap ++ "')".data
      let np := cap
      (pyReplace st.1 old np,
       st.2 ++ [explLine old ("Use variable ".data ++ cap)]))
    st

/-- `\.each\(\(\$([^,]+),\s*([^)]+)\)\s*=>\s*\{` — only searched, never
replaced; a match just appends an advisory explanation. -/
def mEach : Rx (Str × Str) := fun l => do
  let l ← dropLit ".each(($" l
  let (a, l) ← takeRun1 notComma l
  let l ← dropLit "," l
  let (_, l) := takeRun isSpaceCh l
  let (b, l) ← takeRun1 notRParen l
  let l ← dropLit ")" l
  let (_, l) := takeRun isSpaceCh l
  let l ← dropLit "=>" l
  let (_, l) := takeRun isSpaceCh l
  let l ← dropLit "\x7b" l
  pure ((a, b), l)

def stepEach (st : Str × List Str) : Str × List Str :=
  if reSearchB mEach st.1 then
    (st.1, st.2 ++ [explLine ".each()".data
      "Use for loop with locator.count() and locator.nth()".data])
  else st

/-- `cy\.wrap\(\$([^)]+)\)` -/
def mWrap : Rx Str := fun l => do
  let l ← dropLit "cy.wrap($" l
  let (cap, l) ← takeRun1 notRParen l
  let l ← dropLit ")" l
  pure (cap, l)

def stepWrap (st : Str × List Str) : Str × List Str :=
  (refindAll mWrap st.1).foldl
    (fun st cap =>
      let old := "cy.wrap($".data ++ cap ++ ")".data
      let np := "// Use direct locator methods on ".data ++ cap
      (pyReplace st.1 old np,
       st.2 ++ [explLine ("cy.wrap($".data ++ cap ++ ")".data)
         "Use direct locator operations".data]))
    st

/-- `_convert_advanced_patterns(code)` (lines 167–378): the 21 blocks above,
in source order, starting from a fresh explanation list. -/
def _convert_advanced_patterns (code : Str) : Str × List Str :=
  let st := stepContainsBasic (code, [])
  let st := stepContainsSel st
  let st := stepUnidentified st
  let st := stepLocSearch st
  let st := stepLocPathname st
  let st := stepLocHash st
  let st := stepUrlInclude st
  let st := stepUrlEq st
  let st := stepUrlContain st
  let st := stepWaitItsShould st
  let st := stepWaitIts st
  let st := stepWaitAlias st
  let st := stepWaitNumber st
  let st := stepItsResponse st
  let st := stepStatusShould st
  let st := stepShouldEq st
  let st := stepWaitUntil st
  let st := stepAsAlias st
  let st := stepGetAlias st
  let st := stepEach st
  let st := stepWrap st
  st

/-! ### `convert_cypress_code` (interfaces.py lines 7–165) -/

/-- One iteration of the inner pattern loop (lines 128–131 / 139–142):
replace only when the pattern occurs, recording an explanation line. -/
def applyPattern (st : Str × List Str) (pr : String × String) : Str × List Str :=
  if hasSub st.1 pr.1.data then
    (pyReplace st.1 pr.1.data pr.2.data, st.2 ++ [explLine pr.1.data pr.2.data])
  else st

/-- Apply a whole category table, in dict order. -/
def applyCategory (st : Str × List Str) (cat : List (String × String)) : Str × List Str :=
  cat.foldl applyPattern st

/-- Lines 148–151: prepend the async/await note when the converted code has
`page.` or `expect(` but no `await `. -/
def addAsyncNote (st : Str × List Str) : Str × List Str :=
  if !hasSub st.1 "await ".data && (hasSub st.1 "page.".data || hasSub st.1 "expect(".data) then
    ("// Add async/await syntax\n".data ++ st.1,
     st.2 ++ [mjBullet ++ " Added async/await syntax requirement".data])
  else st

/-- Lines 153–157: prepend the Playwright import for full conversion. -/
def addImports (conversion_type : String) (st : Str × List Str) : Str × List Str :=
  if conversion_type = "full_conversion" &&
      (hasSub st.1 "test(".data || hasSub st.1 "expect(".data) then
    if !pyStartsWith st.1 "import".data then
      ("import \x7b test, expect \x7d from '@playwright/test';\n\n".data ++ st.1,
       st.2 ++ [mjBullet ++ " Added required Playwright imports".data])
    else st
  else st

/-- Lines 133–135 / 144–146: run `_convert_advanced_patterns` on the
converted code and extend the explanation list with its explanations. -/
def applyAdvanced (st : Str × List Str) : Str × List Str :=
  let adv := _convert_advanced_patterns st.1
  (adv.1, st.2 ++ adv.2)

/-- Lines 119–157: the category passes, the advanced-pattern pass, the
async/await note and the import insertion, producing the converted code and
the `explanation_parts` list as they stand at line 157. -/
def convertBody (cypress_code : Str) (conversion_type : String) : Str × List Str :=
  addImports conversion_type (addAsyncNote (
    if conversion_type = "full_conversion" then
      -- lines 123–135
      applyAdvanced (categories_to_apply.foldl
        (fun st cat =>
          match conversions.lookup cat with
          | some table => applyCategory st table
          | none => st) (cypress_code, []))
    else
      match conversions.lookup conversion_type with
      | some table =>
        -- lines 137–146
        applyAdvanced (applyCategory (cypress_code, []) table)
      | none => (cypress_code, [])))

/-- Line 159. -/
def renderExplanation (parts : List Str) : Str :=
  if parts.isEmpty then "No direct conversions needed.".data
  else "**Conversion Changes:**\n".data ++ joinWith "\n".data parts

/-- Lines 161–164: the `test.test.beforeEach` normalisation.  (Its
explanation entry is appended *after* the explanation string was already
built on line 159, so it never reaches the caller; we still mirror it.) -/
def fixArtifact (code : Str) (parts : List Str) : Str × List Str :=
  if hasSub code "test.test.beforeEach".data then
    (pyReplace code "test.test.beforeEach".data "test.beforeEach".data,
     parts ++ [mjBullet ++
       " Fixed accidental 'test.test.beforeEach' to 'test.beforeEach'".data])
  else (code, parts)

/-- `convert_cypress_code(cypress_code, conversion_type)`: the full function,
returning `(converted_code, explanation)` exactly as the Python does. -/
def convert_cypress_code (cypress_code conversion_type : String) : String × String :=
  let st := convertBody cypress_code.data conversion_type
  let explanation := renderExplanation st.2
  let fixed := fixArtifact st.1 st.2
  (String.mk fixed.1, String.mk explanation)


/-! ### Basic lemmas about the string primitives -/

theorem hasSub_iff_occurs {hay pat : Str} : hasSub hay pat = true ↔ pat <:+: hay := by
  induction hay with
  | nil => simp [hasSub, List.isEmpty_iff]
  | cons h t ih =>
    simp [hasSub, List.infix_cons_iff, ih, List.isPrefixOf_iff_prefix]

theorem hasSub_false_trans {s p t : Str} (hpt : hasSub p t = true)
    (hst : hasSub s t = false) : hasSub s p = false := by
  cases hsp : hasSub s p with
  | false => rfl
  | true =>
    have : hasSub s t = true :=
      hasSub_iff_occurs.mpr ((hasSub_iff_occurs.mp hpt).trans (hasSub_iff_occurs.mp hsp))
    rw [this] at hst
    exact absurd hst (by simp)

theorem hasSub_cons_false {c : Char} {cs pat : Str} (h : hasSub (c :: cs) pat = false) :
    pat.isPrefixOf (c :: cs) = false ∧ hasSub cs pat = false := by
  have h' := h
  rw [hasSub] at h'
  exact ⟨(Bool.or_eq_false_iff.mp h').1, (Bool.or_eq_false_iff.mp h').2⟩

theorem isPrefixOf_nil_false {pat : Str} (h : pat ≠ []) :
    pat.isPrefixOf ([] : Str) = false := by
  cases pat with
  | nil => exact absurd rfl h
  | cons c cs => rfl

/-- If a matcher can only succeed when the literal `w` sits at the head, and
`w` occurs nowhere in `s`, then the scan finds nothing. -/
theorem refindAux_nil {α} (m : Rx α) (w : Str) (hw : w ≠ [])
    (hm : ∀ l, w.isPrefixOf l = false → m l = none) :
    ∀ fuel s, hasSub s w = false → refindAux m fuel s = [] := by
  intro fuel
  induction fuel with
  | zero => intro s _; rfl
  | succ n ih =>
    intro s hs
    cases s with
    | nil =>
      rw [refindAux, hm [] (isPrefixOf_nil_false hw)]
    | cons c cs =>
      obtain ⟨h1, h2⟩ := hasSub_cons_false hs
      rw [refindAux, hm _ h1]
      exact ih cs h2

theorem refindAll_nil {α} (m : Rx α) (w : Str) (hw : w ≠ [])
    (hm : ∀ l, w.isPrefixOf l = false → m l = none)
    {s : Str} (h : hasSub s w = false) : refindAll m s = [] :=
  refindAux_nil m w hw hm _ s h

theorem reFold_skip {α} (m : Rx α) (w : Str) (hw : w ≠ [])
    (hm : ∀ l, w.isPrefixOf l = false → m l = none)
    (upd : (Str × List Str) → α → (Str × List Str)) (st : Str × List Str)
    (h : hasSub st.1 w = false) :
    (refindAll m st.1).foldl upd st = st := by
  rw [refindAll_nil m w hw hm h]
  rfl

/-! Head-literal lemmas: each matcher fails unless its leading literal is a
prefix of the text. -/

theorem mContainsBasic_none {l : Str} (h : "cy.contains(".data.isPrefixOf l = false) :
    mContainsBasic l = none := by simp [mContainsBasic, dropLit, h]

theorem mContainsSel_none {l : Str} (h : "cy.contains(".data.isPrefixOf l = false) :
    mContainsSel l = none := by simp [mContainsSel, dropLit, h]

theorem mUnidentifiedCy_none {l : Str} (h : "cy.".data.isPrefixOf l = false) :
    mUnidentifiedCy l = none := by simp [mUnidentifiedCy, dropLit, h]

theorem mLocSearch_none {l : Str}
    (h : "cy.location('search').should('include',".data.isPrefixOf l = false) :
    mLocSearch l = none := by simp [mLocSearch, dropLit, h]

theorem mLocPathname_none {l : Str}
    (h : "cy.location('pathname').should('include',".data.isPrefixOf l = false) :
    mLocPathname l = none := by simp [mLocPathname, dropLit, h]

theorem mLocHash_none {l : Str}
    (h : "cy.location('hash').should('include',".data.isPrefixOf l = false) :
    mLocHash l = none := by simp [mLocHash, dropLit, h]

theorem mUrlInclude_none {l : Str}
    (h : "cy.url().should('include',".data.isPrefixOf l = false) :
    mUrlInclude l = none := by simp [mUrlInclude, dropLit, h]

theorem mUrlEq_none {l : Str}
    (h : "cy.url().should('eq',".data.isPrefixOf l = false) :
    mUrlEq l = none := by simp [mUrlEq, dropLit, h]

theorem mUrlContain_none {l : Str}
    (h : "cy.url().should('contain',".data.isPrefixOf l = false) :
    mUrlContain l = none := by simp [mUrlContain, dropLit, h]

theorem mWaitItsShould_none {l : Str} (h : "cy.wait('@".data.isPrefixOf l = false) :
    mWaitItsShould l = none := by simp [mWaitItsShould, dropLit, h]

theorem mWaitIts_none {l : Str} (h : "cy.wait('@".data.isPrefixOf l = false) :
    mWaitIts l = none := by simp [mWaitIts, dropLit, h]

theorem mWaitAlias_none {l : Str} (h : "cy.wait('@".data.isPrefixOf l = false) :
    mWaitAlias l = none := by simp [mWaitAlias, dropLit, h]

theorem mWaitNumber_none {l : Str} (h : "cy.wait(".data.isPrefixOf l = false) :
    mWaitNumber l = none := by simp [mWaitNumber, dropLit, h]

theorem mStatusShould_none {l : Str}
    (h : ".status().should('eq',".data.isPrefixOf l = false) :
    mStatusShould l = none := by simp [mStatusShould, dropLit, h]

theorem mShouldEq_none {l : Str} (h : ".should('eq',".data.isPrefixOf l = false) :
    mShouldEq l = none := by simp [mShouldEq, dropLit, h]

theorem mWaitUntil_none {l : Str} (h : "cy.waitUntil(() => ".data.isPrefixOf l = false) :
    mWaitUntil l = none := by simp [mWaitUntil, dropLit, h]

theorem mAsAlias_none {l : Str} (h : ".as(".data.isPrefixOf l = false) :
    mAsAlias l = none := by simp [mAsAlias, dropLit, h]

theorem mGetAlias_none {l : Str} (h : "cy.get('@".data.isPrefixOf l = false) :
    mGetAlias l = none := by simp [mGetAlias, dropLit, h]

theorem mEach_none {l : Str} (h : ".each(($".data.isPrefixOf l = false) :
    mEach l = none := by simp [mEach, dropLit, h]

theorem mWrap_none {l : Str} (h : "cy.wrap($".data.isPrefixOf l = false) :
    mWrap l = none := by simp [mWrap, dropLit, h]

/-! Skip lemmas: when a block's head literal occurs nowhere, the block is the
identity on the state. -/

theorem stepContainsBasic_skip {code : Str} {parts : List Str}
    (h : hasSub code "cy.contains(".data = false) :
    stepContainsBasic (code, parts) = (code, parts) :=
  reFold_skip _ _ (by decide) (fun _ hl => mContainsBasic_none hl) _ _ h

theorem stepContainsSel_skip {code : Str} {parts : List Str}
    (h : hasSub code "cy.contains(".data = false) :
    stepContainsSel (code, parts) = (code, parts) :=
  reFold_skip _ _ (by decide) (fun _ hl => mContainsSel_none hl) _ _ h

theorem stepUnidentified_skip {code : Str} {parts : List Str}
    (h : hasSub code "cy.".data = false) :
    stepUnidentified (code, parts) = (code, parts) :=
  reFold_skip _ _ (by decide) (fun _ hl => mUnidentifiedCy_none hl) _ _ h

theorem stepLocSearch_skip {code : Str} {parts : List Str}
    (h : hasSub code "cy.location('search').should('include',".data = false) :
    stepLocSearch (code, parts) = (code, parts) :=
  reFold_skip _ _ (by decide) (fun _ hl => mLocSearch_none hl) _ _ h

theorem stepLocPathname_skip {code : Str} {parts : List Str}
    (h : hasSub code "cy.location('pathname').should('include',".data = false) :
    stepLocPathname (code, parts) = (code, parts) :=
  reFold_skip _ _ (by decide) (fun _ hl => mLocPathname_none hl) _ _ h

theorem stepLocHash_skip {code : Str} {parts : List Str}
    (h : hasSub code "cy.location('hash').should('include',".data = false) :
    stepLocHash (code, parts) = (code, parts) :=
  reFold_skip _ _ (by decide) (fun _ hl => mLocHash_none hl) _ _ h

theorem stepUrlInclude_skip {code : Str} {parts : List Str}
    (h : hasSub code "cy.url().should('include',".data = false) :
    stepUrlInclude (code, parts) = (code, parts) :=
  reFold_skip _ _ (by decide) (fun _ hl => mUrlInclude_none hl) _ _ h

theorem stepUrlEq_skip {code : Str} {parts : List Str}
    (h : hasSub code "cy.url().should('eq',".data = false) :
    stepUrlEq (code, parts) = (code, parts) :=
  reFold_skip _ _ (by decide) (fun _ hl => mUrlEq_none hl) _ _ h

theorem stepUrlContain_skip {code : Str} {parts : List Str}
    (h : hasSub code "cy.url().should('contain',".data = false) :
    stepUrlContain (code, parts) = (code, parts) :=
  reFold_skip _ _ (by decide) (fun _ hl => mUrlContain_none hl) _ _ h

theorem stepWaitItsShould_skip {code : Str} {parts : List Str}
    (h : hasSub code "cy.wait('@".data = false) :
    stepWaitItsShould (code, parts) = (code, parts) :=
  reFold_skip _ _ (by decide) (fun _ hl => mWaitItsShould_none hl) _ _ h

theorem stepWaitIts_skip {code : Str} {parts : List Str}
    (h : hasSub code "cy.wait('@".data = false) :
    stepWaitIts (code, parts) = (code, parts) :=
  reFold_skip _ _ (by decide) (fun _ hl => mWaitIts_none hl) _ _ h

theorem stepWaitAlias_skip {code : Str} {parts : List Str}
    (h : hasSub code "cy.wait('@".data = false) :
    stepWaitAlias (code, parts) = (code, parts) :=
  reFold_skip _ _ (by decide) (fun _ hl => mWaitAlias_none hl) _ _ h

theorem stepWaitNumber_skip {code : Str} {parts : List Str}
    (h : hasSub code "cy.wait(".data = false) :
    stepWaitNumber (code, parts) = (code, parts) :=
  reFold_skip _ _ (by decide) (fun _ hl => mWaitNumber_none hl) _ _ h

theorem stepItsResponse_skip {code : Str} {parts : List Str}
    (h : hasSub code ".its('response.statusCode')".data = false) :
    stepItsResponse (code, parts) = (code, parts) := by
  simp [stepItsResponse, h]

theorem stepStatusShould_skip {code : Str} {parts : List Str}
    (h : hasSub code ".status().should('eq',".data = false) :
    stepStatusShould (code, parts) = (code, parts) :=
  reFold_skip _ _ (by decide) (fun _ hl => mStatusShould_none hl) _ _ h

theorem stepShouldEq_skip {code : Str} {parts : List Str}
    (h : hasSub code ".should('eq',".data = false) :
    stepShouldEq (code, parts) = (code, parts) :=
  reFold_skip _ _ (by decide) (fun _ hl => mShouldEq_none hl) _ _ h

theorem stepWaitUntil_skip {code : Str} {parts : List Str}
    (h : hasSub code "cy.waitUntil(() => ".data = false) :
    stepWaitUntil (code, parts) = (code, parts) :=
  reFold_skip _ _ (by decide) (fun _ hl => mWaitUntil_none hl) _ _ h

theorem stepAsAlias_skip {code : Str} {parts : List Str}
    (h : hasSub code ".as(".data = false) :
    stepAsAlias (code, parts) = (code, parts) :=
  reFold_skip _ _ (by decide) (fun _ hl => mAsAlias_none hl) _ _ h

theorem stepGetAlias_skip {code : Str} {parts : List Str}
    (h : hasSub code "cy.get('@".data = false) :
    stepGetAlias (code, parts) = (code, parts) :=
  reFold_skip _ _ (by decide) (fun _ hl => mGetAlias_none hl) _ _ h

theorem stepEach_skip {code : Str} {parts : List Str}
    (h : hasSub code ".each(($".data = false) :
    stepEach (code, parts) = (code, parts) := by
  have : refindAll mEach code = [] :=
    refindAll_nil _ _ (by decide) (fun _ hl => mEach_none hl) h
  simp [stepEach, reSearchB, this]

theorem stepWrap_skip {code : Str} {parts : List Str}
    (h : hasSub code "cy.wrap($".data = false) :
    stepWrap (code, parts) = (code, parts) :=
  reFold_skip _ _ (by decide) (fun _ hl => mWrap_none hl) _ _ h

theorem applyPattern_skip {code : Str} {parts : List Str} {pr : String × String}
    (h : hasSub code pr.1.data = false) :
    applyPattern (code, parts) pr = (code, parts) := by
  simp [applyPattern, h]

theorem applyCategory_skip {code : Str} {parts : List Str} {cat : List (String × String)}
    (h : ∀ pr ∈ cat, hasSub code pr.1.data = false) :
    applyCategory (code, parts) cat = (code, parts) := by
  induction cat with
  | nil => rfl
  | cons p ps ih =>
    unfold applyCategory at ih ⊢
    rw [List.foldl_cons, applyPattern_skip (h p (by simp))]
    exact ih fun pr hpr => h pr (by simp [hpr])

/-! ### Stability: inputs none of the rewriting machinery can touch -/

/-- The head literals of the advanced-pattern regexes. -/
def regexHeads : List String :=
  ["cy.contains(", "cy.", "cy.location('search').should('include',",
   "cy.location('pathname').should('include',", "cy.location('hash').should('include',",
   "cy.url().should('include',", "cy.url().should('eq',", "cy.url().should('contain',",
   "cy.wait('@", "cy.wait(", ".its('response.statusCode')", ".status().should('eq',",
   ".should('eq',", "cy.waitUntil(() => ", ".as(", "cy.get('@", ".each(($", "cy.wrap($"]

/-- Every substring whose presence any rewriting block tests for: the keys
of all eight category tables plus the regex head literals. -/
def rulePatterns : List String :=
  (conversions.flatMap fun c => c.2.map Prod.fst) ++ regexHeads

/-- `rulePatterns` plus the strings the post-steps (async note, import
insertion, artifact fix) test for. -/
def probeStrings : List String :=
  rulePatterns ++ ["await ", "page.", "expect(", "test(", "test.test.beforeEach"]

/-- A text is *stable* when no category key or regex head occurs in it and
each post-step's guard fails: then every pass of `convert_cypress_code`
leaves it untouched. -/
def stablePoint (s : Str) : Bool :=
  (rulePatterns.all fun t => !(hasSub s t.data)) &&
  (hasSub s "await ".data || (!hasSub s "page.".data && !hasSub s "expect(".data)) &&
  (pyStartsWith s "import".data || (!hasSub s "test(".data && !hasSub s "expect(".data)) &&
  (!hasSub s "test.test.beforeEach".data)

/-- A compact reading of "contains no Cypress-specific syntax", as the
converter understands it: none of these fragments occurs.  Each rule key,
regex head and post-step guard string contains one of them
(`trigger_covers`), so trigger-free text is stable. -/
def triggerStrings : List String :=
  ["cy.", "Cypress.", "window.localStorage", ".type(", ".click()", ".should(",
   ".its(", ".fixture(", ".each(", ".as(", ".invoke(", ".status(",
   "describe(", "it(", "beforeEach", "before(", "await ", "page.", "expect(", "test("]

def trigFree (s : Str) : Bool := triggerStrings.all fun t => !(hasSub s t.data)

theorem trigger_covers :
    ∀ p ∈ probeStrings, ∃ t ∈ triggerStrings, hasSub p.data t.data = true := by
  decide

theorem probe_absent {s : Str} (hf : trigFree s = true) {p : String}
    (hp : p ∈ probeStrings) : hasSub s p.data = false := by
  obtain ⟨t, ht, hpt⟩ := trigger_covers p hp
  have hst : hasSub s t.data = false := by
    have := List.all_eq_true.mp hf t ht
    simpa using this
  exact hasSub_false_trans hpt hst

theorem trigFree_stablePoint {s : Str} (hf : trigFree s = true) :
    stablePoint s = true := by
  have habs : ∀ p ∈ probeStrings, hasSub s p.data = false := fun p hp => probe_absent hf hp
  have h1 : rulePatterns.all (fun t => !(hasSub s t.data)) = true :=
    List.all_eq_true.mpr fun t ht => by
      simp [habs t (by simp [probeStrings, ht])]
  simp only [stablePoint, h1, Bool.true_and]
  simp [habs "page." (by decide), habs "expect(" (by decide),
    habs "test(" (by decide), habs "test.test.beforeEach" (by decide)]

theorem stable_rule_absent {s : Str} (hs : stablePoint s = true) {p : String}
    (hp : p ∈ rulePatterns) : hasSub s p.data = false := by
  have h1 := (Bool.and_eq_true_iff.mp
    (Bool.and_eq_true_iff.mp (Bool.and_eq_true_iff.mp hs).1).1).1
  have := List.all_eq_true.mp h1 p hp
  simpa using this

/-- The advanced-pattern pass leaves stable text untouched. -/
theorem adv_stable {s : Str} (hs : stablePoint s = true) :
    _convert_advanced_patterns s = (s, []) := by
  have habs : ∀ p ∈ rulePatterns, hasSub s p.data = false :=
    fun p hp => stable_rule_absent hs hp
  unfold _convert_advanced_patterns
  simp only [stepContainsBasic_skip (habs _ (by decide)),
    stepContainsSel_skip (habs _ (by decide)),
    stepUnidentified_skip (habs _ (by decide)),
    stepLocSearch_skip (habs _ (by decide)),
    stepLocPathname_skip (habs _ (by decide)),
    stepLocHash_skip (habs _ (by decide)),
    stepUrlInclude_skip (habs _ (by decide)),
    stepUrlEq_skip (habs _ (by decide)),
    stepUrlContain_skip (habs _ (by decide)),
    stepWaitItsShould_skip (habs _ (by decide)),
    stepWaitIts_skip (habs _ (by decide)),
    stepWaitAlias_skip (habs _ (by decide)),
    stepWaitNumber_skip (habs _ (by decide)),
    stepItsResponse_skip (habs _ (by decide)),
    stepStatusShould_skip (habs _ (by decide)),
    stepShouldEq_skip (habs _ (by decide)),
    stepWaitUntil_skip (habs _ (by decide)),
    stepAsAlias_skip (habs _ (by decide)),
    stepGetAlias_skip (habs _ (by decide)),
    stepEach_skip (habs _ (by decide)),
    stepWrap_skip (habs _ (by decide))]

theorem mem_of_lookup {α β : Type} [BEq α] {l : List (α × β)} {k : α} {v : β}
    (h : l.lookup k = some v) : v ∈ l.map Prod.snd := by
  induction l with
  | nil => simp [List.lookup] at h
  | cons p ps ih =>
    obtain ⟨a, b⟩ := p
    rw [List.lookup] at h
    split at h
    · simp at h
      simp [h]
    · simp [ih h]

/-- Every key of every category table is a rule pattern. -/
theorem table_keys_covered :
    ∀ table ∈ conversions.map Prod.snd, ∀ pr ∈ table, pr.1 ∈ rulePatterns := by
  decide

/-- The category loop of full conversion is the identity on stable text. -/
theorem catFold_stable {s : Str} (parts : List Str)
    (habs : ∀ p ∈ rulePatterns, hasSub s p.data = false) (names : List String) :
    names.foldl (fun st cat =>
      match conversions.lookup cat with
      | some table => applyCategory st table
      | none => st) (s, parts) = (s, parts) := by
  induction names with
  | nil => rfl
  | cons n ns ih =>
    rw [List.foldl_cons]
    cases hl : conversions.lookup n with
    | none => simpa only [hl] using ih
    | some table =>
      have h1 : applyCategory (s, parts) table = (s, parts) :=
        applyCategory_skip fun pr hpr =>
          habs _ (table_keys_covered table (mem_of_lookup hl) pr hpr)
      simpa only [hl, h1] using ih

/-- On stable text, `convertBody` does nothing, under every conversion
mode: the rule passes find nothing and the post-step guards fail. -/
theorem convertBody_stable (s : Str) (mode : String) (hs : stablePoint s = true) :
    convertBody s mode = (s, []) := by
  have habs : ∀ p ∈ rulePatterns, hasSub s p.data = false :=
    fun p hp => stable_rule_absent hs hp
  have hasync : addAsyncNote (s, ([] : List Str)) = (s, []) := by
    have h2 := (Bool.and_eq_true_iff.mp
      (Bool.and_eq_true_iff.mp (Bool.and_eq_true_iff.mp hs).1).1).2
    unfold addAsyncNote
    rcases Bool.or_eq_true_iff.mp h2 with h | h
    · simp [h]
    · obtain ⟨hp, he⟩ := Bool.and_eq_true_iff.mp h
      simp only at hp he
      simp [Bool.not_eq_true' .. |>.mp hp, Bool.not_eq_true' .. |>.mp he]
  have himp : addImports mode (s, ([] : List Str)) = (s, []) := by
    have h3 := (Bool.and_eq_true_iff.mp (Bool.and_eq_true_iff.mp hs).1).2
    unfold addImports
    rcases Bool.or_eq_true_iff.mp h3 with h | h
    · simp [h]
    · obtain ⟨ht, he⟩ := Bool.and_eq_true_iff.mp h
      simp only at ht he
      simp [Bool.not_eq_true' .. |>.mp ht, Bool.not_eq_true' .. |>.mp he]
  have hadv : applyAdvanced (s, ([] : List Str)) = (s, []) := by
    simp [applyAdvanced, adv_stable hs]
  unfold convertBody
  by_cases hm : mode = "full_conversion"
  · rw [if_pos hm]
    rw [catFold_stable [] habs categories_to_apply, hadv, hasync, himp]
  · rw [if_neg hm]
    cases hl : conversions.lookup mode with
    | none =>
      show addImports mode (addAsyncNote (s, [])) = (s, [])
      rw [hasync, himp]
    | some table =>
      have h1 : applyCategory (s, ([] : List Str)) table = (s, []) :=
        applyCategory_skip fun pr hpr =>
          habs _ (table_keys_covered table (mem_of_lookup hl) pr hpr)
      show addImports mode (addAsyncNote
        (applyAdvanced (applyCategory (s, []) table))) = (s, [])
      rw [h1, hadv, hasync, himp]

/-- On stable text, `convert_cypress_code` returns its input with the
"no conversions" explanation. -/
theorem convert_stable (code : String) (mode : String)
    (hs : stablePoint code.data = true) :
    convert_cypress_code code mode = (code, "No direct conversions needed.") := by
  have h4 := (Bool.and_eq_true_iff.mp hs).2
  have hfix : hasSub code.data "test.test.beforeEach".data = false := by
    simpa using h4
  unfold convert_cypress_code
  rw [convertBody_stable code.data mode hs]
  simp [renderExplanation, fixArtifact, hfix]

/-! ### The `test.test.beforeEach` normalisation (claim C10)

`fixArtifact` replaces non-overlapping occurrences left to right, so the
artifact can survive when occurrences overlap (`test.test.test.beforeEach`).
The lemmas below show that this is the *only* failure mode: if the code
before the pass has no overlapping run, the returned text is artifact-free. -/

def artifactPattern : Str := "test.test.beforeEach".data

def artifactFix : Str := "test.beforeEach".data

def artifactTriple : Str := "test.test.test.beforeEach".data

theorem pre_of_pre_append_long {u v X : Str} (h : u <+: v ++ X)
    (hlen : v.length ≤ u.length) : v <+: u := by
  rw [List.prefix_iff_eq_take] at h ⊢
  rw [h, List.take_take, Nat.min_eq_left hlen, List.take_left]

theorem pre_of_pre_append_short {u v X : Str} (h : u <+: v ++ X)
    (hlen : u.length ≤ v.length) : u <+: v := by
  have h' := List.prefix_iff_eq_take.mp h
  rw [List.take_append_of_le_length hlen] at h'
  exact List.prefix_iff_eq_take.mpr h'

theorem drop_pre_of_pre_append {u v X : Str} (h : u <+: v ++ X) :
    u.drop v.length <+: X := by
  rw [List.prefix_iff_eq_take] at h
  rw [h, List.drop_take, List.drop_left]
  exact List.take_prefix _ _

/-- An occurrence inside a concatenation lies in the left part, lies in the
right part, or straddles the boundary. -/
theorem infix_append_split {u A B : Str} (h : u <:+: A ++ B) :
    u <:+: A ∨ u <:+: B ∨
      ∃ x y, u = x ++ y ∧ x ≠ [] ∧ x <:+ A ∧ y <+: B := by
  obtain ⟨s, t, hst⟩ := h
  by_cases h2 : A.length ≤ s.length
  · right; left
    have hu : u ++ t = B.drop (s.length - A.length) := by
      have e1 : (A ++ B).drop s.length = B.drop (s.length - A.length) := by
        conv_lhs => rw [show s.length = A.length + (s.length - A.length) from by omega]
        rw [List.drop_append]
      rw [← hst, List.append_assoc, List.drop_left] at e1
      exact e1
    have : u <+: B.drop (s.length - A.length) := hu ▸ List.prefix_append u t
    exact this.isInfix.trans (List.drop_suffix _ _).isInfix
  · push_neg at h2
    have hsA : s.length ≤ A.length := le_of_lt h2
    have hu : u ++ t = A.drop s.length ++ B := by
      have e1 : (A ++ B).drop s.length = A.drop s.length ++ B :=
        List.drop_append_of_le_length hsA
      rw [← hst, List.append_assoc, List.drop_left] at e1
      exact e1
    have hupre : u <+: A.drop s.length ++ B := hu ▸ List.prefix_append u t
    by_cases h1 : u.length ≤ A.length - s.length
    · left
      have : u <+: A.drop s.length :=
        pre_of_pre_append_short hupre (by simpa using h1)
      exact this.isInfix.trans (List.drop_suffix _ _).isInfix
    · push_neg at h1
      right; right
      have hxlen : (A.drop s.length).length ≤ u.length := by
        simp only [List.length_drop]
        omega
      have hx : A.drop s.length <+: u := pre_of_pre_append_long hupre hxlen
      refine ⟨A.drop s.length, u.drop (A.drop s.length).length, ?_, ?_,
        List.drop_suffix _ _, ?_⟩
      · rw [List.prefix_iff_eq_take] at hx
        conv_lhs => rw [← List.take_append_drop (A.drop s.length).length u]
        rw [← hx]
      · intro hnil
        have := congrArg List.length hnil
        simp only [List.length_drop, List.length_nil] at this
        omega
      · have := drop_pre_of_pre_append (hu ▸ List.prefix_append u t)
        exact this

/-- No nonempty suffix of `test.beforeEach` is a prefix of
`test.test.beforeEach`, so an occurrence of the artifact can never start
inside replacement text. -/
theorem suffix_fix_prefix_pattern_nil {x : Str} (hs : x <:+ artifactFix)
    (hp : x <+: artifactPattern) : x = [] := by
  have hx : x ∈ artifactFix.tails := (List.mem_tails _ _).mpr hs
  fin_cases hx
  all_goals first
    | rfl
    | exact absurd hp (by decide)

/-- Core induction for the normalisation pass.  If the tail `P.drop k` of
the artifact pattern (`0 < k`) is a prefix of the rewritten text, then
either the same tail already headed the original text, or the copied
characters complete `"test."` and the original text continues with a full
artifact occurrence (the overlapping case). -/
theorem artifact_aux :
    ∀ fuel c k, 1 ≤ k → k ≤ 20 →
      artifactPattern.drop k <+: pyReplaceF artifactPattern artifactFix fuel c →
      (artifactPattern.drop k <+: c) ∨
        (k ≤ 5 ∧ ∃ d, c = (artifactPattern.take 5).drop k ++ d ∧
          artifactPattern <+: d) := by
  intro fuel
  induction fuel with
  | zero => exact fun c k _ _ h => Or.inl h
  | succ n ih =>
    intro c k hk1 hk20 h
    cases c with
    | nil =>
      left
      simp only [pyReplaceF] at h
      have h0 : artifactPattern.drop k = [] := List.prefix_nil.mp h
      simp [h0]
    | cons a t =>
      simp only [pyReplaceF] at h
      by_cases hp : artifactPattern.isPrefixOf (a :: t) = true
      · rw [if_pos hp] at h
        interval_cases k
        all_goals first
          | exact absurd (pre_of_pre_append_long h (by decide)) (by decide)
          | exact absurd (pre_of_pre_append_short h (by decide)) (by decide)
          | exact Or.inl (by
              rw [show artifactPattern.drop 20 = ([] : Str) from by decide]
              simp)
          | exact Or.inr ⟨by omega, a :: t,
              by rw [show (artifactPattern.take 5).drop 5 = ([] : Str) from by decide]; rfl,
              List.isPrefixOf_iff_prefix.mp hp⟩
      · rw [if_neg hp] at h
        by_cases k20 : k = 20
        · subst k20
          left
          rw [show artifactPattern.drop 20 = ([] : Str) from by decide]
          simp
        · have hkP : k < artifactPattern.length := by
            rw [show artifactPattern.length = 20 from by decide]
            omega
          rw [List.drop_eq_getElem_cons hkP, List.cons_prefix_cons] at h
          obtain ⟨hhead, htail⟩ := h
          rcases ih t (k + 1) (by omega) (by omega) htail with h1 | ⟨hk5, d, hd, hPd⟩
          · left
            rw [List.drop_eq_getElem_cons hkP, List.cons_prefix_cons]
            exact ⟨hhead, h1⟩
          · right
            refine ⟨by omega, d, ?_, hPd⟩
            have hlen5 : k < (artifactPattern.take 5).length := by
              rw [show (artifactPattern.take 5).length = 5 from by decide]
              omega
            rw [hd, List.drop_eq_getElem_cons hlen5, List.getElem_take,
              List.cons_append, hhead]

/-- If the text contains no overlapping artifact run
(`test.test.test.beforeEach`), the replacement pass removes every
occurrence of `test.test.beforeEach`. -/
theorem artifact_main :
    ∀ fuel c, c.length ≤ fuel → ¬ artifactTriple <:+: c →
      ¬ artifactPattern <:+: pyReplaceF artifactPattern artifactFix fuel c := by
  intro fuel
  induction fuel with
  | zero =>
    intro c hc _ h
    have hc0 : c = [] := List.length_eq_zero.mp (Nat.le_zero.mp hc)
    subst hc0
    simp only [pyReplaceF] at h
    exact absurd (List.infix_nil.mp h) (by decide)
  | succ n ih =>
    intro c hc hT h
    cases c with
    | nil =>
      simp only [pyReplaceF] at h
      exact absurd (List.infix_nil.mp h) (by decide)
    | cons a t =>
      simp only [pyReplaceF] at h
      by_cases hp : artifactPattern.isPrefixOf (a :: t) = true
      · rw [if_pos hp] at h
        have hT2 : ¬ artifactTriple <:+: (a :: t).drop artifactPattern.length :=
          fun hh => hT (hh.trans (List.drop_suffix _ _).isInfix)
        have hlen : ((a :: t).drop artifactPattern.length).length ≤ n := by
          rw [List.length_drop, show artifactPattern.length = 20 from by decide]
          have hc' := hc
          simp only [List.length_cons] at hc'
          omega
        rcases infix_append_split h with h1 | h2 | ⟨x, y, hxy, hxne, hxsuf, _⟩
        · exact absurd h1 (by decide)
        · exact ih _ hlen hT2 h2
        · exact hxne (suffix_fix_prefix_pattern_nil hxsuf (hxy ▸ List.prefix_append x y))
      · rw [if_neg hp] at h
        have hTt : ¬ artifactTriple <:+: t :=
          fun hh => hT (List.infix_cons_iff.mpr (Or.inr hh))
        have hlent : t.length ≤ n := by
          have hc' := hc
          simp only [List.length_cons] at hc'
          omega
        rcases List.infix_cons_iff.mp h with h1 | h2
        · -- an occurrence at position 0 of the rewritten text
          have hPc : artifactPattern = 't' :: artifactPattern.drop 1 := by decide
          rw [hPc, List.cons_prefix_cons] at h1
          obtain ⟨ha, h1'⟩ := h1
          rcases artifact_aux n t 1 (by omega) (by omega) h1' with hA | ⟨_, d, hd, hPd⟩
          · -- the whole pattern was copied verbatim, so it headed the input
            apply hp
            apply List.isPrefixOf_iff_prefix.mpr
            rw [hPc, List.cons_prefix_cons]
            exact ⟨ha, hA⟩
          · -- the overlapping case: the input started with "test." ++ pattern
            apply hT
            have h5 : (artifactPattern.take 5).drop 1 = "est.".data := by decide
            have hc5 : a :: t = "test.".data ++ d := by
              rw [hd, h5, ← ha]
              rfl
            obtain ⟨e, he⟩ := hPd
            have hTpre : artifactTriple ++ e = a :: t := by
              rw [hc5, show artifactTriple = "test.".data ++ artifactPattern from by decide,
                List.append_assoc, he]
            exact (show artifactTriple <+: a :: t from ⟨e, hTpre⟩).isInfix
        · exact ih t hlent hTt h2

theorem artifact_replace {c : Str} (hT : hasSub c artifactTriple = false) :
    hasSub (pyReplace c artifactPattern artifactFix) artifactPattern = false := by
  have h1 : ¬ artifactTriple <:+: c := fun hh => by
    simp [hasSub_iff_occurs.mpr hh] at hT
  cases hres : hasSub (pyReplace c artifactPattern artifactFix) artifactPattern with
  | false => rfl
  | true =>
    exfalso
    have h2 : artifactPattern <:+: pyReplaceF artifactPattern artifactFix c.length c := by
      have h2' := hasSub_iff_occurs.mp hres
      rw [pyReplace, show artifactPattern.isEmpty = false from by decide] at h2'
      simpa using h2'
    exact artifact_main c.length c le_rfl h1 h2

/-! ### The claims -/

/-- C1 (counterexample): re-running `convert_cypress_code` in
`full_conversion` mode on the output of a previous pass is *not* always a
no-op.  The first pass turns `describe('x')` into `test.describe('x')`;
the second pass re-matches the raw substring `describe(` inside it and
produces `test.test.describe('x')` together with a non-empty change list
(the explanation is not "No direct conversions needed."). -/
theorem c1_counterexample :
    (convert_cypress_code "describe('x')" "full_conversion").1 = "test.describe('x')" ∧
    convert_cypress_code "test.describe('x')" "full_conversion" =
      ("test.test.describe('x')",
       String.mk ("**Conversion Changes:**\n".data ++
         explLine "describe(".data "test.describe(".data)) := by
  exact ⟨by decide, by decide⟩

/-- C1 (amended): a second `full_conversion` pass is a fixed point whenever
the first pass's output is a *stable point* — none of the converter's rule
patterns occurs in it and every post-step guard fails.  (Not for every
input: see the counterexample.)  The second run then returns its input
unchanged with the empty change list. -/
theorem c1_second_pass_noop (code : String)
    (h : stablePoint (convert_cypress_code code "full_conversion").1.data = true) :
    convert_cypress_code (convert_cypress_code code "full_conversion").1 "full_conversion" =
      ((convert_cypress_code code "full_conversion").1, "No direct conversions needed.") ∧
    (convertBody (convert_cypress_code code "full_conversion").1.data "full_conversion").2 = [] := by
  refine ⟨convert_stable _ _ h, ?_⟩
  rw [convertBody_stable _ _ h]

/-- C1 (witness): `cy.visit('/login')` converts to `await page.goto('/login')`,
which is a stable point, so the second pass leaves it unchanged. -/
theorem c1_second_pass_noop_witness :
    stablePoint (convert_cypress_code "cy.visit('/login')" "full_conversion").1.data = true ∧
    convert_cypress_code (convert_cypress_code "cy.visit('/login')" "full_conversion").1
        "full_conversion" =
      ((convert_cypress_code "cy.visit('/login')" "full_conversion").1,
       "No direct conversions needed.") :=
  ⟨by decide, (c1_second_pass_noop "cy.visit('/login')" (by decide)).1⟩

/-- C2: for `cy.wait('@getData').its('response.statusCode').should('eq', 200)`
the intended behaviour (visible in `_convert_advanced_patterns` on its own)
is the composite full-chain rule, firing once with no generic
`.should('eq', N)` rewrite.  But under `full_conversion` the claim fails:
the `basic_syntax` key `it(` fires first inside the raw substring
`cy.wait(`, mangling it to `cy.watest(`, so the composite rule never
matches; the text is instead flagged as an unknown command, and the
generic `.should('eq', 200)` → ` === 200` rule *is* applied.  The output
contains no `waitForResponse` and does contain ` === 200`. -/
theorem c2_chain_rule_bypassed :
    _convert_advanced_patterns
        "cy.wait('@getData').its('response.statusCode').should('eq', 200)".data =
      ("expect((await page.waitForResponse('**/getData**')).status()).toBe(200)".data,
       [explLine "cy.wait('@getData').its('response.statusCode').should('eq', 200)".data
          "expect((await page.waitForResponse('**/getData**')).status()).toBe(200)".data]) ∧
    (convert_cypress_code "cy.wait('@getData').its('response.statusCode').should('eq', 200)"
        "full_conversion").1 =
      "import \x7b test, expect \x7d from '@playwright/test';\n\n// TODO: Manual review needed - possible custom command: cy.watest('@getData')// Use response object directly === 200" ∧
    hasSub "import \x7b test, expect \x7d from '@playwright/test';\n\n// TODO: Manual review needed - possible custom command: cy.watest('@getData')// Use response object directly === 200".data
      "waitForResponse".data = false ∧
    hasSub "import \x7b test, expect \x7d from '@playwright/test';\n\n// TODO: Manual review needed - possible custom command: cy.watest('@getData')// Use response object directly === 200".data
      " === 200".data = true := by
  exact ⟨by decide, by decide, by decide, by decide⟩

/-- C3 (counterexample): an unrecognized conversion mode does not fail the
call.  `convert_cypress_code` has no error path at all: with mode
`"bogus"` it returns a normal report, the input unchanged. -/
theorem c3_counterexample :
    convert_cypress_code "cy.visit('/x')" "bogus" =
      ("cy.visit('/x')", "No direct conversions needed.") := by
  decide

/-- C3 (amended): a conversion mode that is neither `full_conversion` nor a
category name is silently ignored: no rule table and no advanced pass is
applied, and the call returns a report consisting of the input text with
only the final async-note/import post-steps applied (which, starting from
an empty change list, can at most prepend their fixed comment).  No
`InvalidModeError` exists in the code. -/
theorem c3_unknown_mode_report (code : Str) (mode : String)
    (h1 : mode ≠ "full_conversion") (h2 : conversions.lookup mode = none) :
    convertBody code mode = addImports mode (addAsyncNote (code, [])) := by
  unfold convertBody
  rw [if_neg h1, h2]

/-- C3 (witness): mode `"bogus"` is unknown and triggers the no-rules path. -/
theorem c3_unknown_mode_report_witness :
    "bogus" ≠ "full_conversion" ∧ conversions.lookup "bogus" = none ∧
    convertBody "let y = 2;".data "bogus" =
      addImports "bogus" (addAsyncNote ("let y = 2;".data, [])) :=
  ⟨by decide, by decide, c3_unknown_mode_report _ _ (by decide) (by decide)⟩

/-- C4: the unrecognized call `cy.customThing('x')` is converted into a
clearly marked review comment (never dropped or guessed at), the report's
change list is non-empty (the explanation lists the flagged command), and
surrounding code survives verbatim. -/
theorem c4_unknown_command_flagged :
    convert_cypress_code "cy.customThing('x')" "full_conversion" =
      ("// TODO: Manual review needed - possible custom command: cy.customThing('x')",
       String.mk ("**Conversion Changes:**\n".data ++
         explLine "cy.customThing('x')".data
           "// TODO: Manual review needed - possible custom command: cy.customThing('x')".data)) ∧
    (convert_cypress_code "const a = 1;\ncy.customThing('x');\nconst b = 2;"
        "full_conversion").1 =
      "const a = 1;\n// TODO: Manual review needed - possible custom command: cy.customThing('x');\nconst b = 2;" := by
  exact ⟨by decide, by decide⟩

/-- C5 (counterexample): `edit(x)` contains no Cypress-specific syntax, yet
`full_conversion` corrupts it: the `basic_syntax` key `it(` matches inside
`edit(`, yielding `edtest(x)`, and the import post-step then fires on the
accidental `test(` substring.  The change list is non-empty. -/
theorem c5_counterexample :
    convert_cypress_code "edit(x)" "full_conversion" =
      ("import \x7b test, expect \x7d from '@playwright/test';\n\nedtest(x)",
       String.mk ("**Conversion Changes:**\n".data ++
         explLine "it(".data "test(".data ++ "\n".data ++
         mjBullet ++ " Added required Playwright imports".data)) := by
  decide

/-- C5 (amended): an input that contains none of the converter's trigger
fragments (`cy.`, `Cypress.`, `window.localStorage`, `.type(`, `.click()`,
`.should(`, `.its(`, `.fixture(`, `.each(`, `.as(`, `.invoke(`, `.status(`,
`describe(`, `it(`, `beforeEach`, `before(`, `await `, `page.`, `expect(`,
`test(`) is returned unchanged with an empty change list under every
conversion mode — and hence a second run is also unchanged. -/
theorem c5_trigger_free_noop (code : String) (mode : String)
    (h : trigFree code.data = true) :
    convert_cypress_code code mode = (code, "No direct conversions needed.") ∧
    (convertBody code.data mode).2 = [] ∧
    convert_cypress_code (convert_cypress_code code mode).1 mode =
      (code, "No direct conversions needed.") := by
  have hs := trigFree_stablePoint h
  have h1 := convert_stable code mode hs
  refine ⟨h1, ?_, ?_⟩
  · rw [convertBody_stable code.data mode hs]
  · rw [h1]
    exact h1

/-- C5 (witness): plain JavaScript with no trigger fragment passes through
`full_conversion` untouched. -/
theorem c5_trigger_free_noop_witness :
    trigFree "const x = 1;".data = true ∧
    convert_cypress_code "const x = 1;" "full_conversion" =
      ("const x = 1;", "No direct conversions needed.") :=
  ⟨by decide, (c5_trigger_free_noop "const x = 1;" "full_conversion" (by decide)).1⟩

/-- C6: for `cy.url().should('include', '/dashboard')` under
`full_conversion` the claimed output never appears: the `basic_syntax` key
`cy.url()` fires first, rewriting the text to
`page.url().should('include', '/dashboard')`, after which the URL-assertion
regex (which requires a leading `cy.url()`) cannot match; the final output
has no `await expect(page).toHaveURL(` at all.  `_convert_advanced_patterns`
on its own performs the documented conversion, confirming the claim
describes the code's intent. -/
theorem c6_url_include_lost :
    (convert_cypress_code "cy.url().should('include', '/dashboard')" "full_conversion").1 =
      "// Add async/await syntax\npage.url().should('include', '/dashboard')" ∧
    hasSub "// Add async/await syntax\npage.url().should('include', '/dashboard')".data
      "await expect(page).toHaveURL(".data = false ∧
    (_convert_advanced_patterns "cy.url().should('include', '/dashboard')".data).1 =
      "await expect(page).toHaveURL(/.*/dashboard.*/)".data := by
  exact ⟨by decide, by decide, by decide⟩

/-- C7: for `cy.wait(3000)` under `full_conversion` the claimed output never
appears: the `basic_syntax` key `it(` fires inside `cy.wait(`, mangling the
text to `cy.watest(3000)`, which is then flagged as an unknown custom
command; no `await page.waitForTimeout(3000)` is produced.
`_convert_advanced_patterns` on its own performs the documented conversion,
including the auto-wait advisory in its explanation, confirming the claim
describes the code's intent (and the repository's own wait-conversion
tests). -/
theorem c7_wait_timeout_lost :
    (convert_cypress_code "cy.wait(3000)" "full_conversion").1 =
      "import \x7b test, expect \x7d from '@playwright/test';\n\n// TODO: Manual review needed - possible custom command: cy.watest(3000)" ∧
    hasSub "import \x7b test, expect \x7d from '@playwright/test';\n\n// TODO: Manual review needed - possible custom command: cy.watest(3000)".data
      "await page.waitForTimeout(3000)".data = false ∧
    _convert_advanced_patterns "cy.wait(3000)".data =
      ("await page.waitForTimeout(3000)".data,
       [explLineSuf "cy.wait(3000)".data "await page.waitForTimeout(3000)".data
          " (consider using auto-wait instead)".data]) := by
  exact ⟨by decide, by decide, by decide⟩

/-- C8: `convert_cypress_code` is a total function: for every input string
(however malformed) and every mode it returns a report — a pair of output
text and explanation.  The embedding is total because the source performs
only substring tests, substring replacements and constant-pattern regex
scans, none of which can raise; the only behaviour a bad mode changes is
which (possibly empty) set of rules is applied. -/
theorem c8_never_raises : ∀ (code mode : String),
    ∃ output explanation : String,
      convert_cypress_code code mode = (output, explanation) :=
  fun _ _ => ⟨_, _, rfl⟩

/-- C9: `convert_cypress_code` is deterministic — two invocations on the
same text and mode return the same report (same output text, same ordered
explanation).  The embedding is a pure function of its arguments: the
source iterates fixed insertion-ordered tables and a fixed regex sequence,
with no randomness, time, or shared state. -/
theorem c9_deterministic (code mode : String) (r₁ r₂ : String × String)
    (h₁ : convert_cypress_code code mode = r₁)
    (h₂ : convert_cypress_code code mode = r₂) : r₁ = r₂ :=
  h₁.symm.trans h₂

/-- C9 (witness): both runs on a concrete input agree. -/
theorem c9_deterministic_witness :
    convert_cypress_code "cy.visit('/a')" "basic_syntax" =
      convert_cypress_code "cy.visit('/a')" "basic_syntax" :=
  c9_deterministic "cy.visit('/a')" "basic_syntax" _ _ rfl rfl

/-- C10 (counterexample): the final normalisation does *not* remove every
occurrence of `test.test.beforeEach`.  For input `test.beforeEach(` the
`beforeEach(` rule fires in both `basic_syntax` and `fixtures_commands`,
producing `test.test.test.beforeEach(...`; the normalisation replaces the
single non-overlapping occurrence it finds, and the returned output still
contains `test.test.beforeEach`. -/
theorem c10_counterexample :
    (convert_cypress_code "test.beforeEach(" "full_conversion").1 =
      "test.test.beforeEach(async (\x7b page \x7d) => \x7basync (\x7b page \x7d) => \x7b" ∧
    hasSub "test.test.beforeEach(async (\x7b page \x7d) => \x7basync (\x7b page \x7d) => \x7b".data
      artifactPattern = true := by
  exact ⟨by decide, by decide⟩

/-- C10 (amended): the normalisation removes every occurrence of
`test.test.beforeEach` from the returned output *provided* the code just
before the pass contains no overlapping run `test.test.test.beforeEach`;
overlap is the only way the artifact survives. -/
theorem c10_artifact_removed_without_overlap (code mode : String)
    (h : hasSub (convertBody code.data mode).1 artifactTriple = false) :
    hasSub (convert_cypress_code code mode).1.data artifactPattern = false := by
  show hasSub (fixArtifact (convertBody code.data mode).1
      (convertBody code.data mode).2).1 artifactPattern = false
  unfold fixArtifact
  split
  · exact artifact_replace h
  · next hin => exact Bool.eq_false_iff.mpr hin

/-- C10 (witness): `beforeEach(x` produces the artifact without overlap, and
the returned output is artifact-free. -/
theorem c10_artifact_removed_without_overlap_witness :
    hasSub (convertBody "beforeEach(x".data "full_conversion").1 artifactTriple = false ∧
    hasSub (convert_cypress_code "beforeEach(x" "full_conversion").1.data
      artifactPattern = false :=
  ⟨by decide, c10_artifact_removed_without_overlap "beforeEach(x" "full_conversion" (by decide)⟩
